import Mathlib

/-!
Verification development for the simulation core of `subway_runner.py`,
an endless-runner arcade game.

Modelling conventions:
* Python floats are modelled as exact rationals (`ℚ`); Python ints as `Int`.
* `int(...)` / implicit float→int conversion of screen coordinates is
  truncation toward zero (`pyInt`).
* `pygame.Rect` is a record of four integers; `colliderect` is the exact
  overlap test of pygame's `DO_RECTS_INTERSECT` macro.
* Randomness (`random.random`, `random.randint`, `random.choice`,
  `random.uniform`) is supplied by an explicit oracle: every random draw
  of a step becomes a parameter, so theorems quantify over all draws.
* `math.hypot dx dy` (an irrational square root) appears only in the
  magnet pass.  Its two uses are modelled exactly:
  the guard `dist < 150 and dist > 1` is expressed with the squared
  distance (`dist² < 22500 ∧ dist² > 1`, equivalent for the nonnegative
  root), and the normalised pull `(dx/dist*5, dy/dist*5)` is an oracle
  parameter about which theorems assume only bounds the true value
  satisfies (its second component is at most `5`).
* Particle colour and size are presentation-only and omitted; the
  particle lifecycle (spawn with `life = 30`, decay, removal) is kept.
-/

namespace SubwayRunner

/-- Screen width in pixels (`WIDTH = 480`). -/
def WIDTH : Int := 480

/-- Screen height in pixels (`HEIGHT = 700`). -/
def HEIGHT : Int := 700

/-- Vertical coordinate of the ground line (`GROUND_Y = HEIGHT - 110 = 590`). -/
def GROUND_Y : Int := 590

/-- Horizontal centers of the three lanes
(`LANES = [WIDTH // 4, WIDTH // 2, 3 * WIDTH // 4]`). -/
def LANES : List Int := [120, 240, 360]

/-- Number of lanes (`LANE_COUNT = 3`). -/
def LANE_COUNT : Int := 3

/-- Truncation toward zero: the conversion Python `int()` (and pygame's
coordinate coercion) applies to a float. -/
def pyInt (q : ℚ) : Int := if q < 0 then ⌈q⌉ else ⌊q⌋

/-- An axis-aligned integer rectangle, as `pygame.Rect`. -/
structure Rect where
  x : Int
  y : Int
  w : Int
  h : Int
deriving Repr, DecidableEq

/-- Horizontal center of a rectangle (`Rect.centerx = x + w // 2`). -/
def Rect.centerx (r : Rect) : Int := r.x + r.w / 2

/-- Vertical center of a rectangle (`Rect.centery = y + h // 2`). -/
def Rect.centery (r : Rect) : Int := r.y + r.h / 2

/-- Exact overlap test of `pygame.Rect.colliderect`
(the `DO_RECTS_INTERSECT` macro): the two half-open integer boxes meet. -/
def colliderect (a b : Rect) : Bool :=
  decide ((((b.x ≤ a.x ∧ a.x < b.x + b.w) ∨ (a.x ≤ b.x ∧ b.x < a.x + a.w)) ∧
           ((b.y ≤ a.y ∧ a.y < b.y + b.h) ∨ (a.y ≤ b.y ∧ b.y < a.y + a.h))))

/-- A feedback particle.  Colour and size are presentation-only and
omitted; position, velocity and lifetime are the timing-relevant state. -/
structure Particle where
  x : ℚ
  y : ℚ
  vel_x : ℚ
  vel_y : ℚ
  life : Int
  max_life : Int
deriving Repr, DecidableEq

/-- One step of `Particle.update`: drift, gravity-like pull on the
vertical velocity, and lifetime decay. -/
def Particle.update (p : Particle) : Particle :=
  { p with x := p.x + p.vel_x, y := p.y + p.vel_y,
           vel_y := p.vel_y + 0.15, life := p.life - 1 }

/-- The `spawn_particles` helper: `count` fresh particles at `(x, y)`.
Every call site uses the default lifetime `30`; the `random.uniform`
velocity jitter is supplied by the oracle function `jit`. -/
def spawnParticles (x y : ℚ) (jit : Nat → ℚ × ℚ) (count : Nat) : List Particle :=
  (List.range count).map fun i =>
    { x := x, y := y, vel_x := (jit i).1, vel_y := (jit i).2, life := 30, max_life := 30 }

/-- The player character.  `lane` is an `Int` as in the source
(guarded to `[0, LANE_COUNT)` by `move_lane`). -/
structure Player where
  lane : Int
  x : ℚ
  y : ℚ
  vel_y : ℚ
  on_ground : Bool
  sliding : Bool
  slide_timer : Int
  target_x : ℚ
  invincible : Int
  anim_frame : Int
  anim_timer : Int
  double_jump : Bool
deriving Repr, DecidableEq

/-- The freshly constructed player of `Player.__init__`: center lane,
standing on the ground. -/
def Player.init : Player :=
  { lane := 1, x := 240, y := 590, vel_y := 0, on_ground := true, sliding := false,
    slide_timer := 0, target_x := 240, invincible := 0, anim_frame := 0,
    anim_timer := 0, double_jump := true }

/-- The player's hitbox (`Player.rect`): while sliding the box is the
bottom third of the full height (`WIDTH // 2 = 18`, `HEIGHT // 3 = 18`),
anchored at the feet; otherwise the full `36 × 56` box. -/
def Player.rect (p : Player) : Rect :=
  if p.sliding then
    { x := pyInt (p.x - 18), y := pyInt (p.y - 18), w := 36, h := 18 }
  else
    { x := pyInt (p.x - 18), y := pyInt (p.y - 56), w := 36, h := 56 }

/-- `Player.move_lane`: shift the lane index by `direction` when the
result stays within `[0, LANE_COUNT)`, updating the easing target. -/
def Player.move_lane (p : Player) (direction : Int) : Player :=
  let new_lane := p.lane + direction
  if 0 ≤ new_lane ∧ new_lane < LANE_COUNT then
    { p with lane := new_lane, target_x := ((LANES.getD new_lane.toNat 0 : Int) : ℚ) }
  else p

/-- `Player.jump`: ground jump with impulse `-16`, or the one double
jump with impulse `-16 * 0.85`; otherwise a no-op.  Returns the player
and the feedback particles it spawns. -/
def Player.jump (p : Player) (jit : Nat → ℚ × ℚ) : Player × List Particle :=
  if p.on_ground then
    ({ p with vel_y := -16, on_ground := false, sliding := false, slide_timer := 0,
              double_jump := true }, spawnParticles p.x p.y jit 6)
  else if p.double_jump then
    ({ p with vel_y := -16 * 0.85, double_jump := false },
     spawnParticles p.x (p.y - 28) jit 10)
  else (p, [])

/-- `Player.slide`: begin a 35-step slide when on the ground and not
already sliding; otherwise a no-op. -/
def Player.slide (p : Player) : Player :=
  if p.on_ground ∧ ¬p.sliding then { p with sliding := true, slide_timer := 35 } else p

/-- `Player.update`: horizontal easing toward the target lane center
(factor `0.22`), gravity integration with ground clamping (emitting
landing particles), slide-timer and invincibility decay, and the cyclic
animation counters. -/
def Player.update (p : Player) (jit : Nat → ℚ × ℚ) : Player × List Particle :=
  let x' := p.x + (p.target_x - p.x) * 0.22
  let g : ℚ × ℚ × Bool × List Particle :=
    if p.on_ground then (p.y, p.vel_y, true, [])
    else
      let v := p.vel_y + 0.7
      let y := p.y + v
      if y ≥ (590 : ℚ) then (590, 0, true, spawnParticles x' 590 jit 5)
      else (y, v, false, [])
  let s : Bool × Int :=
    if p.sliding then
      (if p.slide_timer - 1 ≤ 0 then false else true, p.slide_timer - 1)
    else (p.sliding, p.slide_timer)
  let inv := if p.invincible > 0 then p.invincible - 1 else p.invincible
  let a : Int × Int :=
    if p.anim_timer + 1 ≥ 8 then (0, (p.anim_frame + 1) % 4)
    else (p.anim_timer + 1, p.anim_frame)
  ({ p with x := x', y := g.1, vel_y := g.2.1, on_ground := g.2.2.1,
            sliding := s.1, slide_timer := s.2, invincible := inv,
            anim_timer := a.1, anim_frame := a.2 }, g.2.2.2)

/-- The player-state part of `Player.update` (the particles it spawns do
not influence it). -/
def Player.step (p : Player) : Player := (p.update fun _ => (0, 0)).1

/-- The kinds of obstacle (`Obstacle.kind`). -/
inductive ObsKind where
  | barrier
  | train
  | pole
  | gap
deriving Repr, DecidableEq

/-- An obstacle.  `x` is the fixed lane center; `y` is the scroll
progress (screen placement is derived in `Obstacle.rect`). -/
structure Obstacle where
  lane : Int
  x : Int
  y : ℚ
  speed : ℚ
  kind : ObsKind
  w : Int
  h : Int
deriving Repr, DecidableEq

/-- `Obstacle.__init__`: lane and kind come from the random oracle
(`kindRoll` is the `random.random()` draw, `gapR` the
`random.randint(20, 100)` draw used only by the floating `gap` kind).
Kind thresholds and per-kind geometry are those of the source. -/
def Obstacle.init (speed : ℚ) (lane : Fin 3) (kindRoll : ℚ) (gapR : Int) : Obstacle :=
  let x := LANES.getD lane.val 0
  if kindRoll < 0.35 then
    { lane := lane.val, x := x, y := -50, speed := speed, kind := .barrier, w := 48, h := 28 }
  else if kindRoll < 0.6 then
    { lane := lane.val, x := x, y := -50, speed := speed, kind := .train, w := 44, h := 90 }
  else if kindRoll < 0.80 then
    { lane := lane.val, x := x, y := -50, speed := speed, kind := .pole, w := 16, h := 60 }
  else
    { lane := lane.val, x := x, y := -((GROUND_Y : ℚ) - 80 - gapR), speed := speed,
      kind := .gap, w := 36, h := 36 }

/-- `Obstacle.rect`: ground-anchored for non-`gap` kinds (floating
offset for `gap`); while `y < 0` the box is placed relative to the
anchor, afterwards directly at `y - h`. -/
def Obstacle.rect (o : Obstacle) : Rect :=
  let gy : Int := if o.kind ≠ .gap then GROUND_Y - o.h else GROUND_Y - 80 - 40
  { x := o.x - o.w / 2,
    y := if o.y < 0 then pyInt (o.y + gy) else pyInt (o.y - o.h),
    w := o.w, h := o.h }

/-- `Obstacle.update`: scroll down-screen by the stored speed. -/
def Obstacle.update (o : Obstacle) : Obstacle := { o with y := o.y + o.speed }

/-- `Obstacle.is_off_screen`: the obstacle has scrolled past the bottom. -/
def Obstacle.is_off_screen (o : Obstacle) : Bool := decide (o.y > (HEIGHT : ℚ) + 100)

/-- A coin.  `x`/`y` are rationals because the magnet pass displaces
them by non-integer amounts. -/
structure Coin where
  lane : Int
  x : ℚ
  y_offset : Int
  y : ℚ
  speed : ℚ
  collected : Bool
  anim : Int
  special : Bool
deriving Repr, DecidableEq

/-- Coin radius (`Coin.RADIUS = 10`). -/
def Coin.RADIUS : Int := 10

/-- `Coin.__init__`: lane, height tier, animation phase and the
special-roll come from the random oracle; `special` is an 8% draw. -/
def Coin.init (speed : ℚ) (lane : Fin 3) (height : Fin 4) (anim : Int)
    (specialRoll : ℚ) : Coin :=
  { lane := lane.val, x := ((LANES.getD lane.val 0 : Int) : ℚ),
    y_offset := [0, -40, -80, -120].getD height.val 0,
    y := -20, speed := speed, collected := false, anim := anim,
    special := decide (specialRoll < 0.08) }

/-- `Coin.rect`: a `20 × 20` box around the coin's screen position. -/
def Coin.rect (c : Coin) : Rect :=
  let gy : Int := GROUND_Y + c.y_offset - Coin.RADIUS
  { x := pyInt (c.x - Coin.RADIUS), y := pyInt (c.y + gy),
    w := Coin.RADIUS * 2, h := Coin.RADIUS * 2 }

/-- `Coin.update`: scroll and advance the animation phase. -/
def Coin.update (c : Coin) : Coin := { c with y := c.y + c.speed, anim := c.anim + 1 }

/-- `Coin.is_off_screen`. -/
def Coin.is_off_screen (c : Coin) : Bool := decide (c.y > (HEIGHT : ℚ) + 50)

/-- The three power-up kinds. -/
inductive PKind where
  | magnet
  | shield
  | boost
deriving Repr, DecidableEq

/-- A power-up pickup. -/
structure Powerup where
  lane : Int
  x : Int
  y : ℚ
  speed : ℚ
  kind : PKind
  anim : Int
  collected : Bool
deriving Repr, DecidableEq

/-- `Powerup.__init__`: lane and kind come from the random oracle. -/
def Powerup.init (speed : ℚ) (lane : Fin 3) (kind : PKind) : Powerup :=
  { lane := lane.val, x := LANES.getD lane.val 0, y := -20, speed := speed,
    kind := kind, anim := 0, collected := false }

/-- `Powerup.rect`: a `32 × 32` box hovering 60 units above the ground. -/
def Powerup.rect (pu : Powerup) : Rect :=
  { x := pu.x - 16, y := pyInt (pu.y + (GROUND_Y - 60)), w := 32, h := 32 }

/-- `Powerup.update`: scroll and advance the animation phase. -/
def Powerup.update (pu : Powerup) : Powerup :=
  { pu with y := pu.y + pu.speed, anim := pu.anim + 1 }

/-- `Powerup.is_off_screen`. -/
def Powerup.is_off_screen (pu : Powerup) : Bool := decide (pu.y > (HEIGHT : ℚ) + 50)

/-- The mutable session state of one run of `main` (the variables of the
game-setup block plus the loop-control flags).  `hi_score` is the one
value carried across sessions. -/
structure SimState where
  player : Player
  obstacles : List Obstacle
  coins_list : List Coin
  powerups : List Powerup
  particles : List Particle
  score : ℚ
  coins_collected : Int
  lives : Int
  speed : ℚ
  spawn_timer : Int
  coin_timer : Int
  powerup_timer_spawn : Int
  paused : Bool
  game_over : Bool
  powerup_active : Option PKind
  powerup_timer : Int
  running : Bool
  hi_score : ℚ
deriving Repr, DecidableEq

/-- The fresh session state of the game-setup block (`score = 0`,
`lives = 3`, `speed = 6.0`, empty collections), keeping the carried
high score.  The source keeps `particles` as a module-level list, so it
is a parameter rather than reset. -/
def SimState.start (hi : ℚ) (parts : List Particle) : SimState :=
  { player := Player.init, obstacles := [], coins_list := [], powerups := [],
    particles := parts, score := 0, coins_collected := 0, lives := 3, speed := 6,
    spawn_timer := 0, coin_timer := 0, powerup_timer_spawn := 0, paused := false,
    game_over := false, powerup_active := none, powerup_timer := 0,
    running := true, hi_score := hi }

/-- The per-step random draws of `main`, made explicit.  `pull dx dy`
models the magnet's normalised pull `(dx/dist*5, dy/dist*5)` where
`dist = math.hypot dx dy`; `jit site` is the velocity jitter of the
particles spawned at the given call site. -/
structure Oracle where
  obsLane : Fin 3
  obsRoll : ℚ
  obsGap : Int
  coinCount : Nat
  coinLane : Nat → Fin 3
  coinHeight : Nat → Fin 4
  coinAnim : Nat → Int
  coinRoll : Nat → ℚ
  puLane : Fin 3
  puKind : PKind
  pull : Int → Int → ℚ × ℚ
  jit : Nat → Nat → ℚ × ℚ

/-- The speed ramp of the running loop: `6.0 + (score / 500) * 2.0`,
capped at `18.0`, then `* 1.5` recapped at `24.0` while boost is
active. -/
def computeSpeed (score : ℚ) (active : Option PKind) : ℚ :=
  let s := min (6 + score / 500 * 2) 18
  if active = some .boost then min (s * 1.5) 24 else s

/-- The magnet pass applied to one coin: when the coin is uncollected
and the player's hitbox center is within the attraction range
(`1 < dist < 150`, expressed via the squared distance), displace it by
the normalised pull (oracle `pull`) while counteracting the scroll. -/
def magnetCoin (pr : Rect) (speed : ℚ) (pull : Int → Int → ℚ × ℚ) (c : Coin) : Coin :=
  if c.collected then c
  else
    let dx := pr.centerx - c.rect.centerx
    let dy := pr.centery - c.rect.centery
    if dx * dx + dy * dy < 150 * 150 ∧ 1 < dx * dx + dy * dy then
      { c with x := c.x + (pull dx dy).1, y := c.y + (pull dx dy).2 - speed }
    else c

/-- The magnet block of the running loop (`if powerup_active == "magnet"`),
iterating `magnetCoin` over the coin list. -/
def magnetPass (pr : Rect) (speed : ℚ) (pull : Int → Int → ℚ × ℚ)
    (cs : List Coin) : List Coin :=
  cs.map (magnetCoin pr speed pull)

/-- Accumulator of the coin-collision loop: the processed coins, score,
coin count and spawned particles. -/
structure CoinRes where
  coins_list : List Coin
  score : ℚ
  coins_collected : Int
  newParts : List Particle
deriving Repr, DecidableEq

/-- One iteration of the coin-collision loop: an uncollected coin whose
hitbox overlaps the player's is marked collected, the coin count grows
by `rect.width // 10` plus `value - 1`, the score by `10 * value`
(`value = 5` for a special coin, else `1`). -/
def collectCoin (pr : Rect) (jit : Nat → ℚ × ℚ) (acc : CoinRes) (c : Coin) : CoinRes :=
  if ¬c.collected ∧ colliderect pr c.rect then
    let val : Int := if c.special then 5 else 1
    { coins_list := acc.coins_list ++ [{ c with collected := true }],
      score := acc.score + 10 * val,
      coins_collected := acc.coins_collected + c.rect.w.fdiv 10 + (val - 1),
      newParts := acc.newParts ++
        spawnParticles (c.rect.centerx : ℚ) (c.rect.centery : ℚ) jit 6 }
  else { acc with coins_list := acc.coins_list ++ [c] }

/-- The coin-collision loop of the running step. -/
def resolveCoins (pr : Rect) (jit : Nat → ℚ × ℚ) (cs : List Coin)
    (score : ℚ) (coins_collected : Int) : CoinRes :=
  cs.foldl (collectCoin pr jit)
    { coins_list := [], score := score, coins_collected := coins_collected, newParts := [] }

/-- Accumulator of the power-up-collision loop. -/
structure PuRes where
  powerups : List Powerup
  powerup_active : Option PKind
  powerup_timer : Int
  newParts : List Particle
deriving Repr, DecidableEq

/-- One iteration of the power-up-collision loop: an uncollected
power-up overlapping the player is marked collected (it is not removed)
and overwrites the active power-up, resetting the timer to 300. -/
def collectPowerup (pr : Rect) (jit : Nat → ℚ × ℚ) (acc : PuRes) (pu : Powerup) : PuRes :=
  if ¬pu.collected ∧ colliderect pr pu.rect then
    { powerups := acc.powerups ++ [{ pu with collected := true }],
      powerup_active := some pu.kind,
      powerup_timer := 300,
      newParts := acc.newParts ++
        spawnParticles (pu.rect.centerx : ℚ) (pu.rect.centery : ℚ) jit 12 }
  else { acc with powerups := acc.powerups ++ [pu] }

/-- The power-up-collision loop of the running step. -/
def resolvePowerups (pr : Rect) (jit : Nat → ℚ × ℚ) (pus : List Powerup)
    (active : Option PKind) (timer : Int) : PuRes :=
  pus.foldl (collectPowerup pr jit)
    { powerups := [], powerup_active := active, powerup_timer := timer, newParts := [] }

/-- Accumulator of the obstacle-collision loop.  `obstacles` collects
the surviving obstacles (the source removes a shield-blocked obstacle
from the list while iterating a copy). -/
structure ObsRes where
  obstacles : List Obstacle
  invincible : Int
  powerup_active : Option PKind
  powerup_timer : Int
  lives : Int
  game_over : Bool
  hi_score : ℚ
  newParts : List Particle
deriving Repr, DecidableEq

/-- One iteration of the obstacle-collision loop: with no invincibility
and an overlap, a shield consumes itself, grants 90 frames of
invincibility and destroys the obstacle; otherwise the hit costs one
life, grants 90 frames of invincibility, and at zero lives ends the
session, folding the score into the high score. -/
def hitObstacle (pr : Rect) (px py score : ℚ) (jit : Nat → ℚ × ℚ)
    (acc : ObsRes) (ob : Obstacle) : ObsRes :=
  if acc.invincible = 0 ∧ colliderect pr ob.rect then
    if acc.powerup_active = some .shield then
      { acc with powerup_active := none, powerup_timer := 0, invincible := 90,
                 newParts := acc.newParts ++ spawnParticles px (py - 30) jit 15 }
    else
      let lives' := acc.lives - 1
      { acc with obstacles := acc.obstacles ++ [ob],
                 lives := lives', invincible := 90,
                 newParts := acc.newParts ++ spawnParticles px (py - 30) jit 12,
                 game_over := if lives' ≤ 0 then true else acc.game_over,
                 hi_score := if lives' ≤ 0 then max acc.hi_score score else acc.hi_score }
  else { acc with obstacles := acc.obstacles ++ [ob] }

/-- The obstacle-collision loop of the running step. -/
def resolveObstacles (pr : Rect) (px py score : ℚ) (jit : Nat → ℚ × ℚ)
    (obs : List Obstacle) (invincible : Int) (active : Option PKind)
    (timer : Int) (lives : Int) (game_over : Bool) (hi : ℚ) : ObsRes :=
  obs.foldl (hitObstacle pr px py score jit)
    { obstacles := [], invincible := invincible, powerup_active := active,
      powerup_timer := timer, lives := lives, game_over := game_over,
      hi_score := hi, newParts := [] }

/-- One pass of the running branch of the main loop (source lines
639–749): speed ramp, the three spawners, player and entity updates
with off-screen removal, the magnet pass, the three collision loops,
the power-up countdown, score accrual, and particle decay/removal. -/
def runningStep (st : SimState) (o : Oracle) : SimState :=
  -- speed ramp
  let speed := computeSpeed st.score st.powerup_active
  -- spawn obstacles
  let spawn_timer := st.spawn_timer + 1
  let interval := max 55 (95 - pyInt (st.score / 300))
  let ob0 : Int × List Obstacle :=
    if spawn_timer ≥ interval then
      (0, st.obstacles ++ [Obstacle.init speed o.obsLane o.obsRoll o.obsGap])
    else (spawn_timer, st.obstacles)
  -- spawn coins
  let coin_timer := st.coin_timer + 1
  let cn0 : Int × List Coin :=
    if coin_timer ≥ 25 then
      (0, st.coins_list ++ (List.range o.coinCount).map fun i =>
            Coin.init speed (o.coinLane i) (o.coinHeight i) (o.coinAnim i) (o.coinRoll i))
    else (coin_timer, st.coins_list)
  -- spawn powerups
  let powerup_timer_spawn := st.powerup_timer_spawn + 1
  let pu0 : Int × List Powerup :=
    if powerup_timer_spawn ≥ 360 then
      (0, st.powerups ++ [Powerup.init speed o.puLane o.puKind])
    else (powerup_timer_spawn, st.powerups)
  -- player update (background update is presentation-only)
  let pl := st.player.update (o.jit 0)
  -- entity updates with off-screen removal
  let obstacles1 := (ob0.2.map fun ob => Obstacle.update { ob with speed := speed }).filter
    fun ob => !ob.is_off_screen
  let coins1 := (cn0.2.map fun c => Coin.update { c with speed := speed }).filter
    fun c => !c.is_off_screen
  let powerups1 := (pu0.2.map fun pu => Powerup.update { pu with speed := speed }).filter
    fun pu => !pu.is_off_screen
  -- magnet
  let coins2 := if st.powerup_active = some .magnet then
      magnetPass pl.1.rect speed o.pull coins1
    else coins1
  -- collisions: coins
  let cres := resolveCoins pl.1.rect (o.jit 1) coins2 st.score st.coins_collected
  -- collisions: powerups
  let pres := resolvePowerups pl.1.rect (o.jit 2) powerups1 st.powerup_active st.powerup_timer
  -- powerup countdown
  let cd : Option PKind × Int :=
    if pres.powerup_timer > 0 then
      (if pres.powerup_timer - 1 = 0 then none else pres.powerup_active,
       pres.powerup_timer - 1)
    else (pres.powerup_active, pres.powerup_timer)
  -- collisions: obstacles
  let ores := resolveObstacles pl.1.rect pl.1.x pl.1.y cres.score (o.jit 3)
    obstacles1 pl.1.invincible cd.1 cd.2 st.lives st.game_over st.hi_score
  -- score accrual and particle decay/removal
  { player := { pl.1 with invincible := ores.invincible },
    obstacles := ores.obstacles,
    coins_list := cres.coins_list,
    powerups := pres.powerups,
    particles := ((st.particles ++ pl.2 ++ cres.newParts ++ pres.newParts ++
        ores.newParts).map Particle.update).filter fun p => decide (0 < p.life),
    score := cres.score + speed * 0.05,
    coins_collected := cres.coins_collected,
    lives := ores.lives,
    speed := speed,
    spawn_timer := ob0.1,
    coin_timer := cn0.1,
    powerup_timer_spawn := pu0.1,
    paused := st.paused,
    game_over := ores.game_over,
    powerup_active := ores.powerup_active,
    powerup_timer := ores.powerup_timer,
    running := st.running,
    hi_score := ores.hi_score }

/-- The discrete key-down intents of the event loop. -/
inductive Event where
  | escKey
  | pKey
  | leftKey
  | rightKey
  | upKey
  | downKey
  | spaceKey
deriving Repr, DecidableEq

/-- The `KEYDOWN` dispatch of the main loop (source lines 611–629):
`ESC` always leaves the session loop, `P` always toggles pause; the
gameplay intents act only while neither paused nor ended; `SPACE` while
ended leaves the session loop (restart).  The `ESC`-quit branch under
`game_over` is dead code, shadowed by the first `ESC` test. -/
def handleEvent (st : SimState) (jit : Nat → ℚ × ℚ) (e : Event) : SimState :=
  match e with
  | .escKey => { st with running := false }
  | .pKey => { st with paused := !st.paused }
  | .leftKey =>
      if ¬st.paused ∧ ¬st.game_over then
        { st with player := st.player.move_lane (-1) }
      else st
  | .rightKey =>
      if ¬st.paused ∧ ¬st.game_over then
        { st with player := st.player.move_lane 1 }
      else st
  | .upKey =>
      if ¬st.paused ∧ ¬st.game_over then
        { st with player := (st.player.jump jit).1,
                  particles := st.particles ++ (st.player.jump jit).2 }
      else st
  | .downKey =>
      if ¬st.paused ∧ ¬st.game_over then { st with player := st.player.slide }
      else st
  | .spaceKey =>
      if ¬st.paused ∧ ¬st.game_over then
        { st with player := (st.player.jump jit).1,
                  particles := st.particles ++ (st.player.jump jit).2 }
      else if st.game_over then { st with running := false }
      else st

/-- One frame of the session loop: process the queued key-down events,
then — unless paused or ended, which only draw an overlay — run one
simulation step. -/
def frame (st : SimState) (events : List Event) (o : Oracle) : SimState :=
  let st' := events.foldl (fun s e => handleEvent s (o.jit 4) e) st
  if st'.paused ∨ st'.game_over then st' else runningStep st' o

/-!  Specification views: small derived definitions used to state the
properties, proven to agree with the loops above. -/

/-- The effect of the coin-collision loop on a single coin of the list. -/
def markCoin (pr : Rect) (c : Coin) : Coin :=
  if ¬c.collected ∧ colliderect pr c.rect then { c with collected := true } else c

/-- The effect of the power-up-collision loop on a single power-up of
the list. -/
def markPu (pr : Rect) (pu : Powerup) : Powerup :=
  if ¬pu.collected ∧ colliderect pr pu.rect then { pu with collected := true } else pu

/-- The value of a coin (`val = 5 if c.special else 1`). -/
def coinVal (c : Coin) : Int := if c.special then 5 else 1

/-- The score increment one coin contributes to the coin-collision loop. -/
def coinScoreInc (pr : Rect) (c : Coin) : ℚ :=
  if ¬c.collected ∧ colliderect pr c.rect then 10 * (coinVal c : ℚ) else 0

/-- The coin-count increment one coin contributes to the coin-collision
loop. -/
def coinCntInc (pr : Rect) (c : Coin) : Int :=
  if ¬c.collected ∧ colliderect pr c.rect then c.rect.w.fdiv 10 + (coinVal c - 1) else 0

/-- Every entity and every session counter of `b` agrees with `a`: the
state is frozen up to the presentation flags (`paused`, `running`) and
the carried spawn timers. -/
def simFrozen (a b : SimState) : Prop :=
  b.player = a.player ∧ b.obstacles = a.obstacles ∧ b.coins_list = a.coins_list ∧
  b.powerups = a.powerups ∧ b.particles = a.particles ∧ b.score = a.score ∧
  b.coins_collected = a.coins_collected ∧ b.lives = a.lives ∧ b.speed = a.speed ∧
  b.powerup_active = a.powerup_active ∧ b.powerup_timer = a.powerup_timer ∧
  b.game_over = a.game_over ∧ b.spawn_timer = a.spawn_timer ∧
  b.coin_timer = a.coin_timer ∧ b.powerup_timer_spawn = a.powerup_timer_spawn

/-- An obstacle as it appears some steps after spawning: the
constructor's result with the scroll position and stored speed updated —
the only fields the running loop ever mutates. -/
def Obstacle.scrolled (o : Obstacle) (ty : ℚ) (sp : ℚ) : Obstacle :=
  { o with y := ty, speed := sp }

/-- The horizontal half of the `colliderect` overlap test. -/
def xOverlap (a b : Rect) : Prop :=
  (b.x ≤ a.x ∧ a.x < b.x + b.w) ∨ (a.x ≤ b.x ∧ b.x < a.x + a.w)

/-- The vertical half of the `colliderect` overlap test. -/
def yOverlap (a b : Rect) : Prop :=
  (b.y ≤ a.y ∧ a.y < b.y + b.h) ∨ (a.y ≤ b.y ∧ b.y < a.y + a.h)

instance (a b : Rect) : Decidable (xOverlap a b) := by unfold xOverlap; infer_instance

instance (a b : Rect) : Decidable (yOverlap a b) := by unfold yOverlap; infer_instance

/-!  Concrete fixtures for witnesses and counterexamples. -/

/-- A fixed instantiation of the random oracle: every draw is zero (or
the first alternative). -/
def oracle0 : Oracle :=
  { obsLane := 0, obsRoll := 0, obsGap := 0, coinCount := 0,
    coinLane := fun _ => 0, coinHeight := fun _ => 0, coinAnim := fun _ => 0,
    coinRoll := fun _ => 0, puLane := 0, puKind := .magnet,
    pull := fun _ _ => (0, 0), jit := fun _ _ => (0, 0) }

/-- A session state holding exactly one shield power-up about to be
stepped into the player's hitbox. -/
def stPu : SimState :=
  { SimState.start 0 [] with powerups := [Powerup.init 6 1 .shield] }

/-- A session state in the terminal (game-over) condition. -/
def stOver : SimState :=
  { SimState.start 0 [] with lives := 0, game_over := true, score := 42 }

/-- A coin standing at the center-lane ground position, used as a
concrete magnet-pass input. -/
def coin0 : Coin :=
  { lane := 1, x := 240, y_offset := 0, y := 0, speed := 6, collected := false,
    anim := 0, special := false }

/-!  General lemmas about the embedding. -/

theorem Player.update_fst (p : Player) (jit : Nat → ℚ × ℚ) :
    (p.update jit).1 = p.step := by
  unfold Player.step Player.update
  by_cases hg : p.on_ground <;> simp only [hg] <;>
    by_cases hy : p.y + (p.vel_y + 0.7) ≥ (590 : ℚ) <;> simp [hy]

theorem pyInt_intCast (n : ℤ) : pyInt (n : ℚ) = n := by
  unfold pyInt
  split <;> simp

theorem colliderect_iff (a b : Rect) :
    colliderect a b = true ↔ xOverlap a b ∧ yOverlap a b := by
  simp [colliderect, xOverlap, yOverlap]

theorem colliderect_eq_false_iff (a b : Rect) :
    colliderect a b = false ↔ ¬(xOverlap a b ∧ yOverlap a b) := by
  simp [colliderect, xOverlap, yOverlap, Decidable.not_and_iff_or_not, not_or]

/-- C8: at every Running step the recomputed speed equals
`min (6.0 + (score/500) * 2.0) 18.0` when boost is not active, and
`min (that value * 1.5) 24.0` when boost is active; consequently for
every score the speed never exceeds `18.0` without boost and never
exceeds `24.0` with boost. -/
theorem C8_speed_clamped (score : ℚ) (active : Option PKind) :
    computeSpeed score (some .boost) = min (min (6 + score / 500 * 2) 18 * 1.5) 24 ∧
    (active ≠ some .boost →
      computeSpeed score active = min (6 + score / 500 * 2) 18 ∧
      computeSpeed score active ≤ 18) ∧
    computeSpeed score active ≤ 24 := by
  refine ⟨by simp [computeSpeed], fun h => ⟨by simp [computeSpeed, h], ?_⟩, ?_⟩
  · simp only [computeSpeed, h, if_false]
    exact min_le_right _ _
  · unfold computeSpeed
    split
    · exact min_le_right _ _
    · exact le_trans (min_le_right _ _) (by norm_num)

theorem C8_speed_clamped_witness :
    ((none : Option PKind) ≠ some PKind.boost) ∧
    computeSpeed 1000000 none = 18 ∧ computeSpeed 1000000 (some .boost) = 24 := by
  have h1 := (C8_speed_clamped 1000000 none).2.1 (by simp)
  have h2 := (C8_speed_clamped 1000000 (some .boost)).1
  have e1 : ((6 + (1000000 : ℚ) / 500 * 2) ⊓ 18) = 18 := min_eq_right (by norm_num)
  have e2 : ((18 : ℚ) * 1.5) ⊓ 24 = 24 := min_eq_right (by norm_num)
  refine ⟨by simp, ?_, ?_⟩
  · rw [h1.1, e1]
  · rw [h2, e1, e2]

/-- C10: the magnet pass displaces a coin only if it is uncollected and
the squared distance between the coin's and the player's hitbox centers
is strictly between `1` and `150² = 22500` (for the nonnegative root
`dist = √d2` these are exactly the source's `dist > 1` and
`dist < 150`); hence the distance the pull direction is normalised by
is never zero. -/
theorem C10_magnet_guard (pr : Rect) (speed : ℚ) (pull : Int → Int → ℚ × ℚ)
    (c : Coin) (hne : magnetCoin pr speed pull c ≠ c) :
    c.collected = false ∧
    1 < (pr.centerx - c.rect.centerx) * (pr.centerx - c.rect.centerx) +
        (pr.centery - c.rect.centery) * (pr.centery - c.rect.centery) ∧
    (pr.centerx - c.rect.centerx) * (pr.centerx - c.rect.centerx) +
        (pr.centery - c.rect.centery) * (pr.centery - c.rect.centery) < 22500 ∧
    (pr.centerx - c.rect.centerx) * (pr.centerx - c.rect.centerx) +
        (pr.centery - c.rect.centery) * (pr.centery - c.rect.centery) ≠ 0 := by
  unfold magnetCoin at hne
  by_cases hc : c.collected = true
  · rw [if_pos hc] at hne
    exact absurd rfl hne
  · rw [if_neg hc] at hne
    by_cases hg : (pr.centerx - c.rect.centerx) * (pr.centerx - c.rect.centerx) +
        (pr.centery - c.rect.centery) * (pr.centery - c.rect.centery) < 150 * 150 ∧
        1 < (pr.centerx - c.rect.centerx) * (pr.centerx - c.rect.centerx) +
        (pr.centery - c.rect.centery) * (pr.centery - c.rect.centery)
    · exact ⟨by simpa using hc, hg.2, by linarith [hg.1],
        (lt_trans Int.zero_lt_one hg.2).ne'⟩
    · rw [if_neg hg] at hne
      exact absurd rfl hne

theorem C10_magnet_guard_witness :
    (magnetCoin Player.init.rect 6 (fun _ _ => (5, 0)) coin0 ≠ coin0) ∧
    coin0.collected = false ∧
    1 < (Player.init.rect.centerx - coin0.rect.centerx) *
          (Player.init.rect.centerx - coin0.rect.centerx) +
        (Player.init.rect.centery - coin0.rect.centery) *
          (Player.init.rect.centery - coin0.rect.centery) := by
  have hne : magnetCoin Player.init.rect 6 (fun _ _ => (5, 0)) coin0 ≠ coin0 := by
    unfold magnetCoin coin0 Player.init Player.rect Coin.rect
    norm_num [pyInt, Rect.centerx, Rect.centery, Coin.RADIUS, GROUND_Y]
  have h := C10_magnet_guard Player.init.rect 6 (fun _ _ => (5, 0)) coin0 hne
  exact ⟨hne, h.1, h.2.1⟩

theorem Player.step_x (p : Player) :
    (Player.step p).x = p.x + (p.target_x - p.x) * 0.22 := rfl

theorem Player.step_target (p : Player) : (Player.step p).target_x = p.target_x := rfl

theorem Player.iterate_target (p : Player) (n : ℕ) :
    (Player.step^[n] p).target_x = p.target_x := by
  induction n with
  | zero => rfl
  | succ k ih => rw [Function.iterate_succ_apply', Player.step_target, ih]

theorem Player.iterate_decay (p : Player) (n : ℕ) :
    p.target_x - (Player.step^[n] p).x = (39/50) ^ n * (p.target_x - p.x) := by
  induction n with
  | zero => simp
  | succ k ih =>
      have h022 : (0.22 : ℚ) = 11/50 := by norm_num
      rw [Function.iterate_succ_apply', Player.step_x, Player.iterate_target, h022,
        pow_succ]
      have : p.target_x - ((Player.step^[k] p).x +
          (p.target_x - (Player.step^[k] p).x) * (11/50)) =
          (p.target_x - (Player.step^[k] p).x) * (39/50) := by ring
      rw [this, ih]
      ring

/-- C7 (amended): after any state (in particular after a `MoveLane`
intent), the horizontal position moves toward the target lane center
monotonically without overshooting, the gap to the target shrinks by
the exact factor `1 - 0.22 = 39/50` every step, and for every positive
tolerance the position is within that tolerance of the target after a
bounded number of steps.  (In exact arithmetic the target is never
reached at a finite step; see the counterexample.) -/
theorem C7_lane_easing :
    (∀ (p : Player) (n : ℕ),
      p.target_x - (Player.step^[n] p).x = (39/50) ^ n * (p.target_x - p.x)) ∧
    (∀ (p : Player) (n : ℕ), p.x ≤ p.target_x →
      (Player.step^[n] p).x ≤ (Player.step^[n+1] p).x ∧
      (Player.step^[n] p).x ≤ p.target_x) ∧
    (∀ (p : Player) (n : ℕ), p.target_x ≤ p.x →
      (Player.step^[n+1] p).x ≤ (Player.step^[n] p).x ∧
      p.target_x ≤ (Player.step^[n] p).x) ∧
    (∀ (p : Player) (ε : ℚ), 0 < ε → ∃ N : ℕ, ∀ n ≥ N,
      |p.target_x - (Player.step^[n] p).x| < ε) := by
  have hq0 : (0 : ℚ) ≤ 39/50 := by norm_num
  have hq1 : (39/50 : ℚ) ≤ 1 := by norm_num
  refine ⟨Player.iterate_decay, ?_, ?_, ?_⟩
  · intro p n h
    have hd : (0 : ℚ) ≤ p.target_x - p.x := by linarith
    have hn := Player.iterate_decay p n
    have hn1 := Player.iterate_decay p (n + 1)
    have hpow : ((39:ℚ)/50) ^ (n + 1) * (p.target_x - p.x) ≤
        ((39:ℚ)/50) ^ n * (p.target_x - p.x) := by
      apply mul_le_mul_of_nonneg_right _ hd
      exact pow_le_pow_of_le_one hq0 hq1 (Nat.le_succ n)
    have hge : (0 : ℚ) ≤ ((39:ℚ)/50) ^ n * (p.target_x - p.x) :=
      mul_nonneg (pow_nonneg hq0 n) hd
    constructor <;> linarith
  · intro p n h
    have hd : p.target_x - p.x ≤ 0 := by linarith
    have hn := Player.iterate_decay p n
    have hn1 := Player.iterate_decay p (n + 1)
    have hpow : ((39:ℚ)/50) ^ n * (p.target_x - p.x) ≤
        ((39:ℚ)/50) ^ (n + 1) * (p.target_x - p.x) := by
      apply mul_le_mul_of_nonpos_right _ hd
      exact pow_le_pow_of_le_one hq0 hq1 (Nat.le_succ n)
    have hle : ((39:ℚ)/50) ^ n * (p.target_x - p.x) ≤ 0 :=
      mul_nonpos_of_nonneg_of_nonpos (pow_nonneg hq0 n) hd
    constructor <;> linarith
  · intro p ε hε
    by_cases hd : p.target_x - p.x = 0
    · refine ⟨0, fun n _ => ?_⟩
      rw [Player.iterate_decay, hd, mul_zero, abs_zero]
      exact hε
    · have habs : (0 : ℚ) < |p.target_x - p.x| := abs_pos.mpr hd
      obtain ⟨N, hN⟩ := exists_pow_lt_of_lt_one
        (div_pos hε habs) (show (39/50 : ℚ) < 1 by norm_num)
      refine ⟨N, fun n hn => ?_⟩
      rw [Player.iterate_decay, abs_mul, abs_pow,
        abs_of_nonneg (show (0:ℚ) ≤ 39/50 by norm_num)]
      have h1 : ((39:ℚ)/50) ^ n ≤ ((39:ℚ)/50) ^ N :=
        pow_le_pow_of_le_one hq0 hq1 hn
      have h2 : ((39:ℚ)/50) ^ N * |p.target_x - p.x| < ε :=
        (lt_div_iff₀ habs).mp hN
      calc ((39:ℚ)/50) ^ n * |p.target_x - p.x| ≤
            ((39:ℚ)/50) ^ N * |p.target_x - p.x| :=
              mul_le_mul_of_nonneg_right h1 (abs_nonneg _)
        _ < ε := h2

theorem C7_lane_easing_witness :
    Player.init.x ≤ (Player.init.move_lane 1).target_x ∧
    (Player.step^[3] (Player.init.move_lane 1)).x ≤
      (Player.init.move_lane 1).target_x ∧
    (Player.init.move_lane 1).target_x - (Player.step^[1] (Player.init.move_lane 1)).x =
      (39/50) ^ 1 * ((Player.init.move_lane 1).target_x - (Player.init.move_lane 1).x) := by
  have hx : (Player.init.move_lane 1).x = 240 := by
    simp [Player.move_lane, Player.init, LANES, LANE_COUNT, List.getD]
  have ht : (Player.init.move_lane 1).target_x = 360 := by
    simp [Player.move_lane, Player.init, LANES, LANE_COUNT, List.getD]
  have hle : (Player.init.move_lane 1).x ≤ (Player.init.move_lane 1).target_x := by
    rw [hx, ht]; norm_num
  refine ⟨?_, (C7_lane_easing.2.1 (Player.init.move_lane 1) 3 hle).2,
    C7_lane_easing.1 (Player.init.move_lane 1) 1⟩
  have : Player.init.x = 240 := rfl
  rw [this, ht]
  norm_num

/-- C7 (counterexample to the claim as stated): from the initial player
after a `MoveLane(+1)` intent, the horizontal position never *equals*
the target lane center at any finite step — the easing is exact
exponential decay, so the claim's "reaches the target within a bounded
number of steps" fails in this model. -/
theorem C7_never_reaches :
    ¬ ∃ n : ℕ, (Player.step^[n] (Player.init.move_lane 1)).x =
      (Player.init.move_lane 1).target_x := by
  rintro ⟨n, hn⟩
  have hd := Player.iterate_decay (Player.init.move_lane 1) n
  rw [hn, sub_self] at hd
  have hx : (Player.init.move_lane 1).x = 240 := by
    simp [Player.move_lane, Player.init, LANES, LANE_COUNT, List.getD]
  have ht : (Player.init.move_lane 1).target_x = 360 := by
    simp [Player.move_lane, Player.init, LANES, LANE_COUNT, List.getD]
  rw [hx, ht] at hd
  have hpos : (0 : ℚ) < (39/50) ^ n * (360 - 240) := by
    apply mul_pos (pow_pos (by norm_num) n) (by norm_num)
  rw [← hd] at hpos
  exact lt_irrefl _ hpos

theorem collectCoin_coins (pr : Rect) (jit : Nat → ℚ × ℚ) (acc : CoinRes) (c : Coin) :
    (collectCoin pr jit acc c).coins_list = acc.coins_list ++ [markCoin pr c] := by
  unfold collectCoin markCoin
  split <;> simp

theorem collectCoin_score (pr : Rect) (jit : Nat → ℚ × ℚ) (acc : CoinRes) (c : Coin) :
    (collectCoin pr jit acc c).score = acc.score + coinScoreInc pr c := by
  unfold collectCoin coinScoreInc coinVal
  split <;> simp

theorem collectCoin_cnt (pr : Rect) (jit : Nat → ℚ × ℚ) (acc : CoinRes) (c : Coin) :
    (collectCoin pr jit acc c).coins_collected =
      acc.coins_collected + coinCntInc pr c := by
  unfold collectCoin coinCntInc coinVal
  split <;> simp [add_assoc]

theorem foldCoins_coins (pr : Rect) (jit : Nat → ℚ × ℚ) (cs : List Coin) :
    ∀ acc : CoinRes,
      (cs.foldl (collectCoin pr jit) acc).coins_list =
        acc.coins_list ++ cs.map (markCoin pr) := by
  induction cs with
  | nil => intro acc; simp
  | cons c cs ih =>
      intro acc
      rw [List.foldl_cons, ih, collectCoin_coins, List.map_cons]
      simp

theorem foldCoins_score (pr : Rect) (jit : Nat → ℚ × ℚ) (cs : List Coin) :
    ∀ acc : CoinRes,
      (cs.foldl (collectCoin pr jit) acc).score =
        acc.score + (cs.map (coinScoreInc pr)).sum := by
  induction cs with
  | nil => intro acc; simp
  | cons c cs ih =>
      intro acc
      rw [List.foldl_cons, ih, collectCoin_score, List.map_cons, List.sum_cons]
      ring

theorem foldCoins_cnt (pr : Rect) (jit : Nat → ℚ × ℚ) (cs : List Coin) :
    ∀ acc : CoinRes,
      (cs.foldl (collectCoin pr jit) acc).coins_collected =
        acc.coins_collected + (cs.map (coinCntInc pr)).sum := by
  induction cs with
  | nil => intro acc; simp
  | cons c cs ih =>
      intro acc
      rw [List.foldl_cons, ih, collectCoin_cnt, List.map_cons, List.sum_cons]
      ring

/-- C1: for every uncollected coin whose hitbox overlaps the player's at
a Running step, the coin-collision pass marks it collected (in place),
and — relative to the same pass without that coin — raises the score by
exactly `10 × value` (`value = 5` if special else `1`, so `+10` normal,
`+50` special) and the coin count by exactly
`(hitbox width // 10) + (value − 1)`, i.e. `2` normal, `6` special. -/
theorem C1_coin_scoring (pr : Rect) (jit : Nat → ℚ × ℚ) (pre post : List Coin)
    (c : Coin) (score : ℚ) (cnt : Int)
    (hc : c.collected = false) (hcol : colliderect pr c.rect = true) :
    (resolveCoins pr jit (pre ++ c :: post) score cnt).coins_list =
      pre.map (markCoin pr) ++
        ({ c with collected := true } :: post.map (markCoin pr)) ∧
    (resolveCoins pr jit (pre ++ c :: post) score cnt).score =
      (resolveCoins pr jit (pre ++ post) score cnt).score + 10 * (coinVal c : ℚ) ∧
    (resolveCoins pr jit (pre ++ c :: post) score cnt).coins_collected =
      (resolveCoins pr jit (pre ++ post) score cnt).coins_collected +
        c.rect.w.fdiv 10 + (coinVal c - 1) ∧
    c.rect.w.fdiv 10 + (coinVal c - 1) = (if c.special then 6 else 2) ∧
    10 * (coinVal c : ℚ) = (if c.special then 50 else 10) := by
  have hguard : ¬c.collected = true ∧ colliderect pr c.rect = true := by
    rw [hc]; exact ⟨Bool.false_ne_true, hcol⟩
  have hmark : markCoin pr c = { c with collected := true } := by
    unfold markCoin; rw [if_pos hguard]
  have hsc : coinScoreInc pr c = 10 * (coinVal c : ℚ) := by
    unfold coinScoreInc; rw [if_pos hguard]
  have hcc : coinCntInc pr c = c.rect.w.fdiv 10 + (coinVal c - 1) := by
    unfold coinCntInc; rw [if_pos hguard]
  have hw : c.rect.w.fdiv 10 = 2 := by
    show ((Coin.RADIUS * 2 : Int).fdiv 10) = 2
    decide
  refine ⟨?_, ?_, ?_, ?_, ?_⟩
  · unfold resolveCoins
    rw [foldCoins_coins]
    simp [hmark]
  · unfold resolveCoins
    rw [foldCoins_score, foldCoins_score]
    simp only [List.map_append, List.map_cons, List.sum_append, List.sum_cons, hsc]
    ring
  · unfold resolveCoins
    rw [foldCoins_cnt, foldCoins_cnt]
    simp only [List.map_append, List.map_cons, List.sum_append, List.sum_cons, hcc]
    ring
  · rw [hw]; unfold coinVal; split <;> norm_num
  · unfold coinVal; split <;> norm_num

theorem C1_coin_scoring_witness :
    coin0.collected = false ∧ colliderect Player.init.rect coin0.rect = true ∧
    (resolveCoins Player.init.rect (fun _ => (0, 0)) [coin0] 0 0).score =
      (resolveCoins Player.init.rect (fun _ => (0, 0)) [] 0 0).score +
        10 * (coinVal coin0 : ℚ) ∧
    10 * (coinVal coin0 : ℚ) = 10 := by
  have hcol : colliderect Player.init.rect coin0.rect = true := by
    unfold colliderect Player.rect Player.init Coin.rect coin0 Coin.RADIUS GROUND_Y
    norm_num [pyInt]
  have h := C1_coin_scoring Player.init.rect (fun _ => (0, 0)) [] [] coin0 0 0 rfl hcol
  refine ⟨rfl, hcol, ?_, ?_⟩
  · simpa using h.2.1
  · have := h.2.2.2.2
    simpa [coin0] using this

/-- C6: a train obstacle (kind drawn from `[0.35, 0.6)`, hence `44 × 90`
ground-anchored hitbox) whose hitbox vertically reaches the player's
ground position is detected against both the sliding hitbox (bottom
third, feet-anchored) and the full standing hitbox — sliding does not
clear it; and without horizontal (lane) overlap neither pose collides,
so only occupying a different lane avoids the hit. -/
theorem C6_train_not_cleared_by_slide (speed sp2 : ℚ) (lane : Fin 3) (roll : ℚ)
    (gapR : Int) (ty : ℚ) (p : Player)
    (hr1 : 0.35 ≤ roll) (hr2 : roll < 0.6) (hy : p.y = 590)
    (hb1 : ((Obstacle.init speed lane roll gapR).scrolled ty sp2).rect.y < 590)
    (hb2 : 590 ≤ ((Obstacle.init speed lane roll gapR).scrolled ty sp2).rect.y + 90) :
    (Obstacle.init speed lane roll gapR).kind = .train ∧
    (Obstacle.init speed lane roll gapR).h = 90 ∧
    ((Obstacle.init speed lane roll gapR).scrolled ty sp2).rect.h = 90 ∧
    (xOverlap (Player.rect { p with sliding := true })
        ((Obstacle.init speed lane roll gapR).scrolled ty sp2).rect →
      colliderect (Player.rect { p with sliding := true })
        ((Obstacle.init speed lane roll gapR).scrolled ty sp2).rect = true ∧
      colliderect (Player.rect { p with sliding := false })
        ((Obstacle.init speed lane roll gapR).scrolled ty sp2).rect = true) ∧
    (¬ xOverlap (Player.rect { p with sliding := true })
        ((Obstacle.init speed lane roll gapR).scrolled ty sp2).rect →
      colliderect (Player.rect { p with sliding := true })
        ((Obstacle.init speed lane roll gapR).scrolled ty sp2).rect = false ∧
      colliderect (Player.rect { p with sliding := false })
        ((Obstacle.init speed lane roll gapR).scrolled ty sp2).rect = false) := by
  have hnr : ¬(roll < 0.35) := not_lt.mpr hr1
  have hkind : (Obstacle.init speed lane roll gapR).kind = .train := by
    unfold Obstacle.init
    rw [if_neg hnr, if_pos hr2]
  have hh : (Obstacle.init speed lane roll gapR).h = 90 := by
    unfold Obstacle.init
    rw [if_neg hnr, if_pos hr2]
  have hw44 : (Obstacle.init speed lane roll gapR).w = 44 := by
    unfold Obstacle.init
    rw [if_neg hnr, if_pos hr2]
  have hrect : ((Obstacle.init speed lane roll gapR).scrolled ty sp2).rect.h = 90 ∧
      ((Obstacle.init speed lane roll gapR).scrolled ty sp2).rect.w = 44 := by
    unfold Obstacle.rect Obstacle.scrolled
    simp [hkind, hh, hw44]
  -- the two player hitboxes: identical horizontal extent, feet-anchored
  have hps : Player.rect { p with sliding := true } =
      { x := pyInt (p.x - 18), y := 572, w := 36, h := 18 } := by
    unfold Player.rect
    simp only [if_pos]
    rw [hy]
    norm_num [pyInt]
  have hpf : Player.rect { p with sliding := false } =
      { x := pyInt (p.x - 18), y := 534, w := 36, h := 56 } := by
    unfold Player.rect
    simp only [Bool.false_eq_true, if_false]
    rw [hy]
    norm_num [pyInt]
  set ore := ((Obstacle.init speed lane roll gapR).scrolled ty sp2).rect with hore
  have hyos : yOverlap { x := pyInt (p.x - 18), y := 572, w := 36, h := 18 } ore := by
    unfold yOverlap
    rw [hrect.1]
    dsimp only
    omega
  have hyof : yOverlap { x := pyInt (p.x - 18), y := 534, w := 36, h := 56 } ore := by
    unfold yOverlap
    rw [hrect.1]
    dsimp only
    omega
  refine ⟨hkind, hh, hrect.1, ?_, ?_⟩
  · intro hx
    rw [hps] at hx
    constructor
    · rw [hps, colliderect_iff]
      exact ⟨hx, hyos⟩
    · rw [hpf, colliderect_iff]
      refine ⟨?_, hyof⟩
      unfold xOverlap at hx ⊢
      simpa using hx
  · intro hx
    rw [hps] at hx
    constructor
    · rw [hps, colliderect_eq_false_iff]
      exact fun h => hx h.1
    · rw [hpf, colliderect_eq_false_iff]
      intro h
      apply hx
      unfold xOverlap at h ⊢
      simpa using h.1

theorem C6_train_not_cleared_by_slide_witness :
    colliderect (Player.rect { Player.init with x := 120, sliding := true })
      ((Obstacle.init 6 0 (1/2) 0).scrolled 590 6).rect = true ∧
    colliderect (Player.rect { Player.init with x := 120, sliding := false })
      ((Obstacle.init 6 0 (1/2) 0).scrolled 590 6).rect = true := by
  have horect : ((Obstacle.init 6 0 (1/2) 0).scrolled 590 6).rect =
      { x := 98, y := 500, w := 44, h := 90 } := by
    unfold Obstacle.init Obstacle.scrolled Obstacle.rect
    norm_num [pyInt, GROUND_Y, LANES, List.getD]
  have hb1 : ((Obstacle.init 6 0 (1/2) 0).scrolled 590 6).rect.y < 590 := by
    rw [horect]; norm_num
  have hb2 : (590 : Int) ≤ ((Obstacle.init 6 0 (1/2) 0).scrolled 590 6).rect.y + 90 := by
    rw [horect]; norm_num
  have h := C6_train_not_cleared_by_slide 6 6 0 (1/2) 0 590
    { Player.init with x := 120 } (by norm_num) (by norm_num) rfl hb1 hb2
  have hps : Player.rect { Player.init with x := 120, sliding := true } =
      { x := 102, y := 572, w := 36, h := 18 } := by
    unfold Player.rect Player.init
    norm_num [pyInt]
  have hxov : xOverlap (Player.rect
      { ({ Player.init with x := 120 } : Player) with sliding := true })
      ((Obstacle.init 6 0 (1/2) 0).scrolled 590 6).rect := by
    have : ({ ({ Player.init with x := 120 } : Player) with sliding := true }) =
        ({ Player.init with x := 120, sliding := true } : Player) := rfl
    rw [this, hps, horect]
    unfold xOverlap
    left
    norm_num
  have hcc := h.2.2.2.1 hxov
  have e1 : ({ ({ Player.init with x := 120 } : Player) with sliding := true }) =
      ({ Player.init with x := 120, sliding := true } : Player) := rfl
  have e2 : ({ ({ Player.init with x := 120 } : Player) with sliding := false }) =
      ({ Player.init with x := 120, sliding := false } : Player) := rfl
  rw [e1, e2] at hcc
  exact hcc

theorem hitObstacle_skip (pr : Rect) (px py score : ℚ) (jit : Nat → ℚ × ℚ)
    (acc : ObsRes) (ob : Obstacle)
    (h : ¬(acc.invincible = 0 ∧ colliderect pr ob.rect = true)) :
    hitObstacle pr px py score jit acc ob =
      { acc with obstacles := acc.obstacles ++ [ob] } := by
  unfold hitObstacle
  rw [if_neg h]

theorem hitObstacle_shield (pr : Rect) (px py score : ℚ) (jit : Nat → ℚ × ℚ)
    (acc : ObsRes) (ob : Obstacle)
    (hinv : acc.invincible = 0) (hcol : colliderect pr ob.rect = true)
    (hsh : acc.powerup_active = some .shield) :
    hitObstacle pr px py score jit acc ob =
      { acc with powerup_active := none, powerup_timer := 0, invincible := 90,
                 newParts := acc.newParts ++ spawnParticles px (py - 30) jit 15 } := by
  unfold hitObstacle
  rw [if_pos ⟨hinv, hcol⟩, if_pos hsh]

theorem hitObstacle_hit (pr : Rect) (px py score : ℚ) (jit : Nat → ℚ × ℚ)
    (acc : ObsRes) (ob : Obstacle)
    (hinv : acc.invincible = 0) (hcol : colliderect pr ob.rect = true)
    (hsh : acc.powerup_active ≠ some .shield) :
    hitObstacle pr px py score jit acc ob =
      { acc with obstacles := acc.obstacles ++ [ob],
                 lives := acc.lives - 1, invincible := 90,
                 newParts := acc.newParts ++ spawnParticles px (py - 30) jit 12,
                 game_over := if acc.lives - 1 ≤ 0 then true else acc.game_over,
                 hi_score := if acc.lives - 1 ≤ 0 then max acc.hi_score score
                             else acc.hi_score } := by
  unfold hitObstacle
  rw [if_pos ⟨hinv, hcol⟩, if_neg hsh]

theorem foldObs_inv (pr : Rect) (px py score : ℚ) (jit : Nat → ℚ × ℚ)
    (obs : List Obstacle) :
    ∀ acc : ObsRes, acc.invincible ≠ 0 →
      obs.foldl (hitObstacle pr px py score jit) acc =
        { acc with obstacles := acc.obstacles ++ obs } := by
  induction obs with
  | nil => intro acc _; simp
  | cons ob obs ih =>
      intro acc hinv
      rw [List.foldl_cons, hitObstacle_skip _ _ _ _ _ _ _ (fun h => hinv h.1), ih]
      · simp
      · exact hinv

theorem foldObs_nocol (pr : Rect) (px py score : ℚ) (jit : Nat → ℚ × ℚ)
    (obs : List Obstacle) (hno : ∀ ob ∈ obs, colliderect pr ob.rect = false) :
    ∀ acc : ObsRes,
      obs.foldl (hitObstacle pr px py score jit) acc =
        { acc with obstacles := acc.obstacles ++ obs } := by
  induction obs with
  | nil => intro acc; simp
  | cons ob obs ih =>
      intro acc
      have hob : colliderect pr ob.rect = false := hno ob (List.mem_cons_self ob obs)
      rw [List.foldl_cons,
        hitObstacle_skip _ _ _ _ _ _ _ (by rw [hob]; rintro ⟨-, h⟩; exact absurd h (by simp)),
        ih (fun o ho => hno o (List.mem_cons_of_mem ob ho))]
      simp

theorem resolveObstacles_inv (pr : Rect) (px py score : ℚ) (jit : Nat → ℚ × ℚ)
    (obs : List Obstacle) (inv : Int) (active : Option PKind) (timer lives : Int)
    (go : Bool) (hi : ℚ) (h : inv ≠ 0) :
    resolveObstacles pr px py score jit obs inv active timer lives go hi =
      { obstacles := obs, invincible := inv, powerup_active := active,
        powerup_timer := timer, lives := lives, game_over := go, hi_score := hi,
        newParts := [] } := by
  unfold resolveObstacles
  rw [foldObs_inv _ _ _ _ _ _ _ h]
  simp

/-- C2: with an active shield, no invincibility, and an obstacle
overlapping the player (the first such obstacle the loop reaches),
obstacle resolution clears the active power-up and its timer, grants 90
frames of invincibility, removes exactly that obstacle from the
collection, and leaves lives (and the ended flag) unchanged. -/
theorem C2_shield_consumption (pr : Rect) (px py score : ℚ) (jit : Nat → ℚ × ℚ)
    (pre post : List Obstacle) (ob : Obstacle) (timer lives : Int)
    (go : Bool) (hi : ℚ)
    (hno : ∀ o ∈ pre, colliderect pr o.rect = false)
    (hcol : colliderect pr ob.rect = true) :
    (resolveObstacles pr px py score jit (pre ++ ob :: post) 0 (some .shield)
        timer lives go hi).powerup_active = none ∧
    (resolveObstacles pr px py score jit (pre ++ ob :: post) 0 (some .shield)
        timer lives go hi).powerup_timer = 0 ∧
    (resolveObstacles pr px py score jit (pre ++ ob :: post) 0 (some .shield)
        timer lives go hi).invincible = 90 ∧
    (resolveObstacles pr px py score jit (pre ++ ob :: post) 0 (some .shield)
        timer lives go hi).lives = lives ∧
    (resolveObstacles pr px py score jit (pre ++ ob :: post) 0 (some .shield)
        timer lives go hi).obstacles = pre ++ post ∧
    (resolveObstacles pr px py score jit (pre ++ ob :: post) 0 (some .shield)
        timer lives go hi).game_over = go := by
  unfold resolveObstacles
  rw [List.foldl_append, foldObs_nocol _ _ _ _ _ _ hno, List.foldl_cons,
    hitObstacle_shield _ _ _ _ _ _ _ rfl hcol rfl,
    foldObs_inv _ _ _ _ _ _ _ (by norm_num)]
  simp

theorem C2_shield_consumption_witness :
    colliderect Player.init.rect ((Obstacle.init 6 1 (1/2) 0).scrolled 590 6).rect
      = true ∧
    (resolveObstacles Player.init.rect 240 590 0 (fun _ => (0, 0))
        [(Obstacle.init 6 1 (1/2) 0).scrolled 590 6] 0 (some .shield)
        300 3 false 0).lives = 3 ∧
    (resolveObstacles Player.init.rect 240 590 0 (fun _ => (0, 0))
        [(Obstacle.init 6 1 (1/2) 0).scrolled 590 6] 0 (some .shield)
        300 3 false 0).powerup_active = none ∧
    (resolveObstacles Player.init.rect 240 590 0 (fun _ => (0, 0))
        [(Obstacle.init 6 1 (1/2) 0).scrolled 590 6] 0 (some .shield)
        300 3 false 0).obstacles = [] := by
  have hcol : colliderect Player.init.rect
      ((Obstacle.init 6 1 (1/2) 0).scrolled 590 6).rect = true := by
    unfold colliderect Player.rect Player.init Obstacle.init Obstacle.scrolled
      Obstacle.rect
    norm_num [pyInt, GROUND_Y, LANES, List.getD]
  have h := C2_shield_consumption Player.init.rect 240 590 0 (fun _ => (0, 0))
    [] [] ((Obstacle.init 6 1 (1/2) 0).scrolled 590 6) 300 3 false 0
    (by intro o ho; exact absurd ho (List.not_mem_nil o)) hcol
  exact ⟨hcol, by simpa using h.2.2.2.1, by simpa using h.1, by simpa using h.2.2.2.2.1⟩

theorem Player.update_invincible (p : Player) (jit : Nat → ℚ × ℚ) :
    (p.update jit).1.invincible =
      if p.invincible > 0 then p.invincible - 1 else p.invincible := rfl

/-- C3: with no shield active and no invincibility, resolution of an
overlapping obstacle (the first the loop reaches) decrements lives by
exactly one — even if more obstacles overlap in the same pass — and
grants 90 frames of invincibility, keeping the obstacle; while the
invincibility counter is nonzero the whole resolution pass changes
nothing, and a full running step (entered with the counter still above
one, hence positive at resolution time) loses no life. -/
theorem C3_unshielded_hit :
    (∀ (pr : Rect) (px py score : ℚ) (jit : Nat → ℚ × ℚ) (pre post : List Obstacle)
        (ob : Obstacle) (active : Option PKind) (timer lives : Int) (go : Bool)
        (hi : ℚ),
      (∀ o ∈ pre, colliderect pr o.rect = false) →
      colliderect pr ob.rect = true →
      active ≠ some .shield →
      (resolveObstacles pr px py score jit (pre ++ ob :: post) 0 active timer lives
          go hi).lives = lives - 1 ∧
      (resolveObstacles pr px py score jit (pre ++ ob :: post) 0 active timer lives
          go hi).invincible = 90 ∧
      (resolveObstacles pr px py score jit (pre ++ ob :: post) 0 active timer lives
          go hi).obstacles = pre ++ ob :: post) ∧
    (∀ (pr : Rect) (px py score : ℚ) (jit : Nat → ℚ × ℚ) (obs : List Obstacle)
        (inv : Int) (active : Option PKind) (timer lives : Int) (go : Bool) (hi : ℚ),
      inv ≠ 0 →
      (resolveObstacles pr px py score jit obs inv active timer lives go hi).lives
        = lives ∧
      (resolveObstacles pr px py score jit obs inv active timer lives go hi).obstacles
        = obs) ∧
    (∀ (st : SimState) (o : Oracle), 1 < st.player.invincible →
      (runningStep st o).lives = st.lives) := by
  refine ⟨?_, ?_, ?_⟩
  · intro pr px py score jit pre post ob active timer lives go hi hno hcol hact
    unfold resolveObstacles
    rw [List.foldl_append, foldObs_nocol _ _ _ _ _ _ hno, List.foldl_cons,
      hitObstacle_hit _ _ _ _ _ _ _ rfl hcol hact,
      foldObs_inv _ _ _ _ _ _ _ (by norm_num)]
    simp
  · intro pr px py score jit obs inv active timer lives go hi hinv
    rw [resolveObstacles_inv _ _ _ _ _ _ _ _ _ _ _ _ hinv]
    exact ⟨rfl, rfl⟩
  · intro st o h
    have hinv : (st.player.update (o.jit 0)).1.invincible ≠ 0 := by
      rw [Player.update_invincible, if_pos (by omega : st.player.invincible > 0)]
      omega
    unfold runningStep
    dsimp only
    rw [resolveObstacles_inv _ _ _ _ _ _ _ _ _ _ _ _ hinv]

theorem C3_unshielded_hit_witness :
    colliderect Player.init.rect ((Obstacle.init 6 1 (1/2) 0).scrolled 590 6).rect
      = true ∧
    (resolveObstacles Player.init.rect 240 590 0 (fun _ => (0, 0))
        [(Obstacle.init 6 1 (1/2) 0).scrolled 590 6] 0 none 0 3 false 0).lives = 2 ∧
    (resolveObstacles Player.init.rect 240 590 0 (fun _ => (0, 0))
        [(Obstacle.init 6 1 (1/2) 0).scrolled 590 6] 0 none 0 3 false 0).invincible
      = 90 ∧
    (resolveObstacles Player.init.rect 240 590 0 (fun _ => (0, 0))
        [(Obstacle.init 6 1 (1/2) 0).scrolled 590 6] 90 none 0 3 false 0).lives = 3 := by
  have hcol : colliderect Player.init.rect
      ((Obstacle.init 6 1 (1/2) 0).scrolled 590 6).rect = true := by
    unfold colliderect Player.rect Player.init Obstacle.init Obstacle.scrolled
      Obstacle.rect
    norm_num [pyInt, GROUND_Y, LANES, List.getD]
  have ha := C3_unshielded_hit.1 Player.init.rect 240 590 0 (fun _ => (0, 0))
    [] [] ((Obstacle.init 6 1 (1/2) 0).scrolled 590 6) none 0 3 false 0
    (by intro o ho; exact absurd ho (List.not_mem_nil o)) hcol (by simp)
  have hb := C3_unshielded_hit.2.1 Player.init.rect 240 590 0 (fun _ => (0, 0))
    [(Obstacle.init 6 1 (1/2) 0).scrolled 590 6] 90 none 0 3 false 0 (by norm_num)
  refine ⟨hcol, ?_, ?_, hb.1⟩
  · have := ha.1
    simpa using this
  · have := ha.2.1
    simpa using this

theorem simFrozen_refl (a : SimState) : simFrozen a a := by
  unfold simFrozen
  exact ⟨rfl, rfl, rfl, rfl, rfl, rfl, rfl, rfl, rfl, rfl, rfl, rfl, rfl, rfl, rfl⟩

theorem simFrozen_trans {a b c : SimState} (h1 : simFrozen a b) (h2 : simFrozen b c) :
    simFrozen a c := by
  unfold simFrozen at h1 h2 ⊢
  obtain ⟨e1, e2, e3, e4, e5, e6, e7, e8, e9, e10, e11, e12, e13, e14, e15⟩ := h1
  obtain ⟨f1, f2, f3, f4, f5, f6, f7, f8, f9, f10, f11, f12, f13, f14, f15⟩ := h2
  exact ⟨f1.trans e1, f2.trans e2, f3.trans e3, f4.trans e4, f5.trans e5, f6.trans e6,
    f7.trans e7, f8.trans e8, f9.trans e9, f10.trans e10, f11.trans e11, f12.trans e12,
    f13.trans e13, f14.trans e14, f15.trans e15⟩

theorem handleEvent_gameOver_cases (st : SimState) (jit : Nat → ℚ × ℚ) (e : Event)
    (hgo : st.game_over = true) :
    handleEvent st jit e = st ∨
    handleEvent st jit e = { st with paused := !st.paused } ∨
    handleEvent st jit e = { st with running := false } := by
  cases e <;> simp [handleEvent, hgo]

theorem handleEvent_gameOver_frozen (st : SimState) (jit : Nat → ℚ × ℚ) (e : Event)
    (hgo : st.game_over = true) :
    simFrozen st (handleEvent st jit e) := by
  rcases handleEvent_gameOver_cases st jit e hgo with h | h | h <;> rw [h] <;>
    exact simFrozen_refl st

theorem foldEvents_gameOver_frozen (jit : Nat → ℚ × ℚ) (es : List Event) :
    ∀ st : SimState, st.game_over = true →
      simFrozen st (es.foldl (fun s e => handleEvent s jit e) st) ∧
      (es.foldl (fun s e => handleEvent s jit e) st).game_over = true := by
  induction es with
  | nil => intro st hgo; exact ⟨simFrozen_refl st, hgo⟩
  | cons e es ih =>
      intro st hgo
      have h1 := handleEvent_gameOver_frozen st jit e hgo
      have hgo' : (handleEvent st jit e).game_over = true := by
        rw [h1.2.2.2.2.2.2.2.2.2.2.2.1, hgo]
      have h2 := ih (handleEvent st jit e) hgo'
      exact ⟨simFrozen_trans h1 h2.1, h2.2⟩

theorem handleEvent_lives_go (st : SimState) (jit : Nat → ℚ × ℚ) (e : Event) :
    (handleEvent st jit e).lives = st.lives ∧
    (handleEvent st jit e).game_over = st.game_over := by
  cases e <;> simp only [handleEvent] <;> (try split_ifs) <;> simp

theorem foldEvents_lives_go (jit : Nat → ℚ × ℚ) (es : List Event) :
    ∀ st : SimState,
      (es.foldl (fun s e => handleEvent s jit e) st).lives = st.lives ∧
      (es.foldl (fun s e => handleEvent s jit e) st).game_over = st.game_over := by
  induction es with
  | nil => intro st; exact ⟨rfl, rfl⟩
  | cons e es ih =>
      intro st
      have h1 := handleEvent_lives_go st jit e
      have h2 := ih (handleEvent st jit e)
      rw [List.foldl_cons]
      exact ⟨h2.1.trans h1.1, h2.2.trans h1.2⟩

theorem hitObstacle_lives_inv (pr : Rect) (px py score : ℚ) (jit : Nat → ℚ × ℚ)
    (acc : ObsRes) (ob : Obstacle)
    (h : acc.lives ≤ 0 → acc.game_over = true) :
    (hitObstacle pr px py score jit acc ob).lives ≤ 0 →
    (hitObstacle pr px py score jit acc ob).game_over = true := by
  unfold hitObstacle
  split
  · split
    · exact h
    · intro hl
      dsimp only at hl ⊢
      rw [if_pos hl]
  · exact h

theorem foldObs_lives_inv (pr : Rect) (px py score : ℚ) (jit : Nat → ℚ × ℚ)
    (obs : List Obstacle) :
    ∀ acc : ObsRes, (acc.lives ≤ 0 → acc.game_over = true) →
      ((obs.foldl (hitObstacle pr px py score jit) acc).lives ≤ 0 →
       (obs.foldl (hitObstacle pr px py score jit) acc).game_over = true) := by
  induction obs with
  | nil => intro acc h; exact h
  | cons ob obs ih =>
      intro acc h
      rw [List.foldl_cons]
      exact ih _ (hitObstacle_lives_inv pr px py score jit acc ob h)

theorem resolveObstacles_lives_inv (pr : Rect) (px py score : ℚ)
    (jit : Nat → ℚ × ℚ) (obs : List Obstacle) (inv : Int) (active : Option PKind)
    (timer lives : Int) (go : Bool) (hi : ℚ) (h : lives ≤ 0 → go = true) :
    (resolveObstacles pr px py score jit obs inv active timer lives go hi).lives ≤ 0 →
    (resolveObstacles pr px py score jit obs inv active timer lives go hi).game_over
      = true := by
  unfold resolveObstacles
  exact foldObs_lives_inv pr px py score jit obs _ h

theorem runningStep_lives_inv (st : SimState) (o : Oracle)
    (h : st.lives ≤ 0 → st.game_over = true) :
    (runningStep st o).lives ≤ 0 → (runningStep st o).game_over = true := by
  unfold runningStep
  dsimp only
  exact resolveObstacles_lives_inv _ _ _ _ _ _ _ _ _ _ _ _ h

/-- C4 (amended): once the session is ended, every frame leaves all
entities, all session counters and the ended flag untouched, move /
jump / slide intents are complete no-ops, restart (`SPACE`) and quit
(`ESC`) end the session loop — but the pause-toggle intent is *not*
ignored: it flips the `paused` flag (changing only which overlay is
drawn).  Moreover, whenever lives are at zero the ended flag holds and
every frame preserves this. -/
theorem C4_ended_frozen :
    (∀ (st : SimState) (es : List Event) (o : Oracle), st.game_over = true →
      simFrozen st (frame st es o) ∧ (frame st es o).game_over = true) ∧
    (∀ (st : SimState) (o : Oracle), st.game_over = true →
      (frame st [.pKey] o).paused = !st.paused ∧
      (frame st [.spaceKey] o).running = false ∧
      (frame st [.escKey] o).running = false ∧
      frame st [.leftKey] o = st ∧ frame st [.rightKey] o = st ∧
      frame st [.upKey] o = st ∧ frame st [.downKey] o = st) ∧
    (∀ (st : SimState) (es : List Event) (o : Oracle),
      (st.lives ≤ 0 → st.game_over = true) →
      ((frame st es o).lives ≤ 0 → (frame st es o).game_over = true)) := by
  have hframe : ∀ (st : SimState) (es : List Event) (o : Oracle),
      st.game_over = true →
      frame st es o = es.foldl (fun s e => handleEvent s (o.jit 4) e) st := by
    intro st es o hgo
    have h := foldEvents_gameOver_frozen (o.jit 4) es st hgo
    unfold frame
    rw [if_pos (Or.inr h.2)]
  refine ⟨?_, ?_, ?_⟩
  · intro st es o hgo
    have h := foldEvents_gameOver_frozen (o.jit 4) es st hgo
    rw [hframe st es o hgo]
    exact h
  · intro st o hgo
    refine ⟨?_, ?_, ?_, ?_, ?_, ?_, ?_⟩ <;>
      rw [hframe _ _ _ hgo] <;> simp [handleEvent, hgo]
  · intro st es o hinv
    unfold frame
    dsimp only
    have hfold := foldEvents_lives_go (o.jit 4) es st
    split
    · rw [hfold.1, hfold.2]
      exact hinv
    · exact runningStep_lives_inv _ o (by rw [hfold.1, hfold.2]; exact hinv)

theorem C4_ended_frozen_witness :
    stOver.game_over = true ∧
    (frame stOver [Event.leftKey] oracle0).score = stOver.score ∧
    (frame stOver [Event.leftKey] oracle0).lives = stOver.lives ∧
    (frame stOver [Event.spaceKey] oracle0).running = false := by
  have h1 := (C4_ended_frozen.1 stOver [Event.leftKey] oracle0 rfl).1
  have h2 := C4_ended_frozen.2.1 stOver oracle0 rfl
  exact ⟨rfl, h1.2.2.2.2.2.1, h1.2.2.2.2.2.2.2.1, h2.2.1⟩

/-- C4 (counterexample to the claim as stated): in the ended state the
pause-toggle intent is *not* ignored — one `P` key-down flips the
`paused` flag of the session. -/
theorem C4_pause_toggle_not_ignored :
    stOver.paused = false ∧ (frame stOver [Event.pKey] oracle0).paused = true :=
  ⟨rfl, rfl⟩

theorem collectPowerup_pus (pr : Rect) (jit : Nat → ℚ × ℚ) (acc : PuRes)
    (pu : Powerup) :
    (collectPowerup pr jit acc pu).powerups = acc.powerups ++ [markPu pr pu] := by
  unfold collectPowerup markPu
  split <;> simp

theorem foldPus_powerups (pr : Rect) (jit : Nat → ℚ × ℚ) (pus : List Powerup) :
    ∀ acc : PuRes,
      (pus.foldl (collectPowerup pr jit) acc).powerups =
        acc.powerups ++ pus.map (markPu pr) := by
  induction pus with
  | nil => intro acc; simp
  | cons pu pus ih =>
      intro acc
      rw [List.foldl_cons, ih, collectPowerup_pus]
      simp

theorem resolvePowerups_powerups (pr : Rect) (jit : Nat → ℚ × ℚ)
    (pus : List Powerup) (active : Option PKind) (timer : Int) :
    (resolvePowerups pr jit pus active timer).powerups = pus.map (markPu pr) := by
  unfold resolvePowerups
  rw [foldPus_powerups]
  simp

/-- C5 (amended): power-ups are *removed* from the collection only by
the off-screen pass — the removal pass keeps exactly the updated
power-ups that are not off-screen; the collision pass never removes a
power-up (it maps each one in place, marking an uncollected overlapping
one as collected, which withdraws it from further pickup and drawing
while it remains in the collection until it scrolls off-screen). -/
theorem C5_powerup_lifecycle (speed : ℚ) (pr : Rect) (jit : Nat → ℚ × ℚ)
    (pus : List Powerup) (active : Option PKind) (timer : Int) :
    (∀ pu ∈ (pus.map fun pu => Powerup.update { pu with speed := speed }).filter
        (fun pu => !pu.is_off_screen), pu.is_off_screen = false) ∧
    (∀ pu ∈ pus, (Powerup.update { pu with speed := speed }).is_off_screen = false →
      Powerup.update { pu with speed := speed } ∈
        (pus.map fun pu => Powerup.update { pu with speed := speed }).filter
          (fun pu => !pu.is_off_screen)) ∧
    (resolvePowerups pr jit pus active timer).powerups = pus.map (markPu pr) ∧
    (resolvePowerups pr jit pus active timer).powerups.length = pus.length ∧
    (∀ pu ∈ pus, ¬pu.collected ∧ colliderect pr pu.rect →
      { pu with collected := true } ∈ (resolvePowerups pr jit pus active timer).powerups) := by
  refine ⟨?_, ?_, resolvePowerups_powerups pr jit pus active timer, ?_, ?_⟩
  · intro pu hpu
    rw [List.mem_filter] at hpu
    have := hpu.2
    simpa using this
  · intro pu hpu hoff
    rw [List.mem_filter]
    refine ⟨List.mem_map_of_mem _ hpu, ?_⟩
    rw [hoff]
    rfl
  · rw [resolvePowerups_powerups]
    exact List.length_map pus _
  · intro pu hpu hguard
    rw [resolvePowerups_powerups]
    have : markPu pr pu = { pu with collected := true } := by
      unfold markPu
      rw [if_pos (by simpa using hguard)]
    rw [← this]
    exact List.mem_map_of_mem _ hpu

theorem C5_powerup_lifecycle_witness :
    (¬(Powerup.init 6 1 PKind.shield).collected = true ∧
      colliderect Player.init.rect (Powerup.init 6 1 PKind.shield).rect = true) ∧
    { Powerup.init 6 1 PKind.shield with collected := true } ∈
      (resolvePowerups Player.init.rect (fun _ => (0, 0))
        [Powerup.init 6 1 PKind.shield] none 0).powerups := by
  have hcol : colliderect Player.init.rect (Powerup.init 6 1 PKind.shield).rect
      = true := by
    unfold colliderect Player.rect Player.init Powerup.init Powerup.rect
    norm_num [pyInt, GROUND_Y, LANES, List.getD]
  have hg : ¬(Powerup.init 6 1 PKind.shield).collected = true ∧
      colliderect Player.init.rect (Powerup.init 6 1 PKind.shield).rect = true :=
    ⟨by simp [Powerup.init], hcol⟩
  refine ⟨hg, ?_⟩
  exact (C5_powerup_lifecycle 6 Player.init.rect (fun _ => (0, 0))
    [Powerup.init 6 1 PKind.shield] none 0).2.2.2.2 _
    (List.mem_cons_self _ _) (by simpa using hg)

theorem computeSpeed_ge_six (score : ℚ) (active : Option PKind) (h : 0 ≤ score) :
    6 ≤ computeSpeed score active := by
  unfold computeSpeed
  have hnn : (0:ℚ) ≤ score / 500 * 2 :=
    mul_nonneg (div_nonneg h (by norm_num)) (by norm_num)
  have h1 : (6:ℚ) ≤ min (6 + score / 500 * 2) 18 :=
    le_min (by linarith) (by norm_num)
  split
  · refine le_min ?_ (by norm_num)
    have := mul_le_mul_of_nonneg_right h1 (show (0:ℚ) ≤ 1.5 by norm_num)
    calc (6:ℚ) ≤ 6 * 1.5 := by norm_num
      _ ≤ min (6 + score / 500 * 2) 18 * 1.5 := this
  · exact h1

theorem markCoin_y (pr : Rect) (c : Coin) : (markCoin pr c).y = c.y := by
  unfold markCoin
  split <;> rfl

theorem markPu_y (pr : Rect) (pu : Powerup) : (markPu pr pu).y = pu.y := by
  unfold markPu
  split <;> rfl

theorem resolveCoins_coins (pr : Rect) (jit : Nat → ℚ × ℚ) (cs : List Coin)
    (score : ℚ) (cnt : Int) :
    (resolveCoins pr jit cs score cnt).coins_list = cs.map (markCoin pr) := by
  unfold resolveCoins
  rw [foldCoins_coins]
  simp

theorem hitObstacle_obstacles_sub (pr : Rect) (px py score : ℚ)
    (jit : Nat → ℚ × ℚ) (acc : ObsRes) (ob x : Obstacle)
    (h : x ∈ (hitObstacle pr px py score jit acc ob).obstacles) :
    x ∈ acc.obstacles ∨ x = ob := by
  unfold hitObstacle at h
  split at h
  · split at h
    · exact Or.inl h
    · dsimp only at h
      rcases List.mem_append.mp h with h | h
      · exact Or.inl h
      · exact Or.inr (List.mem_singleton.mp h)
  · dsimp only at h
    rcases List.mem_append.mp h with h | h
    · exact Or.inl h
    · exact Or.inr (List.mem_singleton.mp h)

theorem foldObs_subset (pr : Rect) (px py score : ℚ) (jit : Nat → ℚ × ℚ)
    (obs : List Obstacle) :
    ∀ (acc : ObsRes) (x : Obstacle),
      x ∈ (obs.foldl (hitObstacle pr px py score jit) acc).obstacles →
      x ∈ acc.obstacles ∨ x ∈ obs := by
  induction obs with
  | nil => intro acc x h; exact Or.inl h
  | cons ob obs ih =>
      intro acc x h
      rw [List.foldl_cons] at h
      rcases ih _ x h with h' | h'
      · rcases hitObstacle_obstacles_sub pr px py score jit acc ob x h' with h'' | h''
        · exact Or.inl h''
        · exact Or.inr (by rw [h'']; exact List.mem_cons_self ob obs)
      · exact Or.inr (List.mem_cons_of_mem ob h')

theorem resolveObstacles_subset (pr : Rect) (px py score : ℚ) (jit : Nat → ℚ × ℚ)
    (obs : List Obstacle) (inv : Int) (active : Option PKind) (timer lives : Int)
    (go : Bool) (hi : ℚ) (x : Obstacle)
    (h : x ∈ (resolveObstacles pr px py score jit obs inv active timer lives
      go hi).obstacles) : x ∈ obs := by
  unfold resolveObstacles at h
  rcases foldObs_subset pr px py score jit obs _ x h with h' | h'
  · exact absurd h' (List.not_mem_nil x)
  · exact h'

theorem magnetCoin_y_le (pr : Rect) (speed : ℚ) (pull : Int → Int → ℚ × ℚ)
    (c : Coin) (hs : 6 ≤ speed) (hp : ∀ dx dy : Int, (pull dx dy).2 ≤ 5)
    (hy : c.y ≤ 750) : (magnetCoin pr speed pull c).y ≤ 750 := by
  unfold magnetCoin
  split
  · exact hy
  · dsimp only
    split
    · dsimp only
      have := hp (pr.centerx - c.rect.centerx) (pr.centery - c.rect.centery)
      linarith
    · exact hy

theorem coin_off_screen_false_iff (c : Coin) :
    c.is_off_screen = false ↔ c.y ≤ 750 := by
  unfold Coin.is_off_screen HEIGHT
  norm_num

theorem powerup_off_screen_false_iff (pu : Powerup) :
    pu.is_off_screen = false ↔ pu.y ≤ 750 := by
  unfold Powerup.is_off_screen HEIGHT
  norm_num

/-- C9: at the end of every Running step (from a state with nonnegative
score — an invariant of the game — and any magnet pull, whose vertical
component the source bounds by `5`), no off-screen obstacle, coin or
power-up remains in its collection — including coins displaced by the
magnet after the removal pass and collected-but-retained coins and
power-ups — and no particle with nonpositive lifetime remains. -/
theorem C9_no_offscreen_entities (st : SimState) (o : Oracle)
    (hscore : 0 ≤ st.score)
    (hpull : ∀ dx dy : Int, (o.pull dx dy).2 ≤ 5) :
    (∀ ob ∈ (runningStep st o).obstacles, ob.is_off_screen = false) ∧
    (∀ c ∈ (runningStep st o).coins_list, c.is_off_screen = false) ∧
    (∀ pu ∈ (runningStep st o).powerups, pu.is_off_screen = false) ∧
    (∀ p ∈ (runningStep st o).particles, 0 < p.life) := by
  have hs6 : 6 ≤ computeSpeed st.score st.powerup_active :=
    computeSpeed_ge_six st.score st.powerup_active hscore
  unfold runningStep
  dsimp only
  refine ⟨?_, ?_, ?_, ?_⟩
  · intro ob hob
    have hmem := resolveObstacles_subset _ _ _ _ _ _ _ _ _ _ _ _ ob hob
    rw [List.mem_filter] at hmem
    simpa using hmem.2
  · intro c hc
    rw [resolveCoins_coins, List.mem_map] at hc
    obtain ⟨c1, hc1, hc1eq⟩ := hc
    rw [← hc1eq, coin_off_screen_false_iff, markCoin_y]
    split at hc1
    · -- magnet pass ran
      unfold magnetPass at hc1
      rw [List.mem_map] at hc1
      obtain ⟨c2, hc2, hc2eq⟩ := hc1
      rw [List.mem_filter] at hc2
      have hy2 : c2.y ≤ 750 := by
        have := hc2.2
        simp only [Bool.not_eq_eq_eq_not, Bool.not_true] at this
        exact (coin_off_screen_false_iff c2).mp (by simpa using this)
      rw [← hc2eq]
      exact magnetCoin_y_le _ _ _ _ hs6 hpull hy2
    · rw [List.mem_filter] at hc1
      have := hc1.2
      simp only [Bool.not_eq_eq_eq_not, Bool.not_true] at this
      exact (coin_off_screen_false_iff c1).mp (by simpa using this)
  · intro pu hpu
    rw [resolvePowerups_powerups, List.mem_map] at hpu
    obtain ⟨pu1, hpu1, hpu1eq⟩ := hpu
    rw [List.mem_filter] at hpu1
    rw [← hpu1eq, powerup_off_screen_false_iff, markPu_y]
    have := hpu1.2
    simp only [Bool.not_eq_eq_eq_not, Bool.not_true] at this
    exact (powerup_off_screen_false_iff pu1).mp (by simpa using this)
  · intro p hp
    rw [List.mem_filter] at hp
    simpa using hp.2

theorem C9_no_offscreen_entities_witness :
    0 ≤ (SimState.start 0 []).score ∧
    (∀ dx dy : Int, (oracle0.pull dx dy).2 ≤ 5) ∧
    (∀ c ∈ (runningStep (SimState.start 0 []) oracle0).coins_list,
      c.is_off_screen = false) ∧
    (∀ p ∈ (runningStep (SimState.start 0 []) oracle0).particles, 0 < p.life) := by
  have hp : ∀ dx dy : Int, (oracle0.pull dx dy).2 ≤ 5 := fun _ _ => by norm_num [oracle0]
  have h := C9_no_offscreen_entities (SimState.start 0 []) oracle0 (le_refl 0) hp
  exact ⟨le_refl 0, hp, h.2.1, h.2.2.2⟩

/-- C5 (counterexample to the claim as stated): a power-up collected
during a running step is still present in the power-up collection at
the end of that step — it is only marked `collected`, not removed. -/
theorem C5_collected_retained :
    (runningStep stPu oracle0).powerup_active = some PKind.shield ∧
    (runningStep stPu oracle0).powerups =
      [{ lane := 1, x := 240, y := -14, speed := 6, kind := PKind.shield, anim := 1,
         collected := true }] := by
  have hb : (if (none : Option PKind) = some PKind.boost then (9:ℚ) else 6) = 6 := by
    rw [if_neg (by simp)]
  have hb2 : (if (none : Option PKind) = some PKind.boost then
      ((9:ℚ) ⊓ 24) else 6) = 6 := by rw [if_neg (by simp)]
  constructor <;>
  · norm_num [runningStep, stPu, SimState.start, oracle0, computeSpeed, Player.init,
      Player.update, Player.rect, Powerup.init, Powerup.update, Powerup.is_off_screen,
      Powerup.rect, resolveCoins, resolvePowerups, collectPowerup, resolveObstacles,
      hitObstacle, magnetPass, colliderect, markPu, spawnParticles, Particle.update,
      List.foldl_cons, List.foldl_nil, List.map_cons, List.map_nil, List.filter_cons,
      List.filter_nil, List.range, pyInt, min_def, GROUND_Y, HEIGHT, LANES, List.getD,
      hb, hb2]

end SubwayRunner
